import Mathlib

/-!
Verification of the picToGDS image-to-GDS conversion pipeline
(`picToGDS.py`, with its web wrapper `app.py`).

The pipeline stages are embedded as pure Lean functions over
row-major pixel grids (`List (List ℕ)`, a row per scanline, values
being the 8-bit intensities 0..255 that the NumPy `uint8` buffers
hold).  Fractional intermediate arithmetic (Floyd–Steinberg error
terms, thresholds) is carried in `ℚ`, which represents the `float64`
values exactly on the ranges the program reaches; the store back into
a `uint8` buffer truncates toward zero, i.e. takes the floor of the
clamped value.
-/

set_option autoImplicit false

namespace PicToGDS

/-- A pixel grid: list of rows, each row a list of 8-bit values. -/
abbrev Grid := List (List ℕ)

/-- Read pixel at row `y`, column `x` (NumPy `img[y, x]`); 0 outside. -/
def getPx (g : Grid) (y x : ℕ) : ℕ := (g.getD y []).getD x 0

/-- Write pixel at row `y`, column `x` (NumPy `img[y, x] = v`);
grids are unchanged outside their bounds, like `List.set`. -/
def setPx (g : Grid) (y x v : ℕ) : Grid := g.set y ((g.getD y []).set x v)

/-- Height of the image, `img.shape[0]`. -/
def gridH (g : Grid) : ℕ := g.length

/-- Width of the image, `img.shape[1]` (rows are rectangular). -/
def gridW (g : Grid) : ℕ := (g.headD []).length

/-! ### Corner corrector (`picToGDS.py` lines 77–93)

    for x in range(width - 1):
        for y in range(height - 1):
            if (binaryImage[y, x] == 0 and binaryImage[y + 1, x] == 255
                and binaryImage[y, x + 1] == 255 and binaryImage[y + 1, x + 1] == 0):
                binaryImage[y + 1, x] = 0
            elif (binaryImage[y, x] == 255 and binaryImage[y + 1, x] == 0
                and binaryImage[y, x + 1] == 0 and binaryImage[y + 1, x + 1] == 255):
                binaryImage[y + 1, x + 1] = 0
-/

/-- One body execution of the corner-correction double loop, at
column `x`, row `y`, translated clause for clause from the source. -/
def cornerStep (b : Grid) (x y : ℕ) : Grid :=
  if getPx b y x = 0 ∧ getPx b (y+1) x = 255 ∧
     getPx b y (x+1) = 255 ∧ getPx b (y+1) (x+1) = 0 then
    setPx b (y+1) x 0
  else if getPx b y x = 255 ∧ getPx b (y+1) x = 0 ∧
          getPx b y (x+1) = 0 ∧ getPx b (y+1) (x+1) = 255 then
    setPx b (y+1) (x+1) 0
  else
    b

/-- The corner-correction pass: outer loop over `x ∈ range (width-1)`,
inner loop over `y ∈ range (height-1)`, mutating the bitmap in place
(modelled by threading the grid through the folds). -/
def cornerFix (b : Grid) : Grid :=
  (List.range (gridW b - 1)).foldl
    (fun g x => (List.range (gridH b - 1)).foldl (fun g2 y => cornerStep g2 x y) g) b

/-- Whether cell `(x, y)` (column, row) is black in the bitmap, i.e.
stores value 0 — the "place geometry here" state. -/
def isBlack (b : Grid) (x y : ℕ) : Prop := getPx b y x = 0

/-- Whether cell `(x, y)` (column, row) is white, i.e. stores 255. -/
def isWhite (b : Grid) (x y : ℕ) : Prop := getPx b y x = 255

instance (b : Grid) (x y : ℕ) : Decidable (isBlack b x y) := by
  unfold isBlack; infer_instance

instance (b : Grid) (x y : ℕ) : Decidable (isWhite b x y) := by
  unfold isWhite; infer_instance

/-- Blacken cell `(x, y)` (column, row). -/
def blacken (b : Grid) (x y : ℕ) : Grid := setPx b y x 0

/-- Corner-correction step as the specification words it: in the 2×2
neighborhood whose top-left corner is `(x, y)`, when top-left and
bottom-right are black and the other diagonal is white, blacken the
bottom-left cell; when top-left and bottom-right are white and the
other diagonal is black, blacken the bottom-right cell; otherwise do
nothing. -/
def cornerStepSpec (b : Grid) (p : ℕ × ℕ) : Grid :=
  if isBlack b p.1 p.2 ∧ isBlack b (p.1+1) (p.2+1) ∧
     isWhite b (p.1+1) p.2 ∧ isWhite b p.1 (p.2+1) then
    blacken b p.1 (p.2+1)
  else if isWhite b p.1 p.2 ∧ isWhite b (p.1+1) (p.2+1) ∧
          isBlack b (p.1+1) p.2 ∧ isBlack b p.1 (p.2+1) then
    blacken b (p.1+1) (p.2+1)
  else
    b

/-- The scan order the specification describes: all pairs `(x, y)`
with `x` the outer index over `0..width-2` and `y` the inner index
over `0..height-2`. -/
def cornerScanOrder (w h : ℕ) : List (ℕ × ℕ) :=
  (List.range (w - 1)).flatMap (fun x => (List.range (h - 1)).map (fun y => (x, y)))

/-- Corner correction as the specification words it: a single fold in
the documented scan order over the progressively mutated bitmap. -/
def cornerFixSpec (b : Grid) : Grid :=
  (cornerScanOrder (gridW b) (gridH b)).foldl cornerStepSpec b

/-- One step of the source loop agrees with the specification's step. -/
theorem cornerStep_eq_spec (b : Grid) (x y : ℕ) :
    cornerStep b x y = cornerStepSpec b (x, y) := by
  simp only [cornerStep, cornerStepSpec, isBlack, isWhite, blacken]
  split_ifs <;> first | rfl | tauto

theorem foldl_bind_map {α : Type} (f : α → ℕ × ℕ → α) (xs ys : List ℕ) (a : α) :
    (xs.flatMap (fun x => ys.map (fun y => (x, y)))).foldl f a =
      xs.foldl (fun g x => ys.foldl (fun g2 y => f g2 (x, y)) g) a := by
  induction xs generalizing a with
  | nil => rfl
  | cons x xs ih =>
    simp only [List.flatMap_cons, List.foldl_append, List.foldl_cons, List.foldl_map]
    exact ih _

/-- Claim C6: The Corner Corrector scans every 2×2 neighborhood with `x` in
`0..width-2` as the outer loop and `y` in `0..height-2` as the inner
loop, reading the progressively mutated bitmap; when top-left and
bottom-right are black and the other diagonal is white it blackens
exactly the bottom-left cell, and when top-left and bottom-right are
white and the other diagonal is black it blackens exactly the
bottom-right cell; no other cell is modified.  Stated as: the source's
double loop computes the same bitmap as the single fold, in the
documented scan order, of the specification's step (which only ever
blackens the designated cell). -/
theorem corner_corrector_matches_spec (b : Grid) :
    cornerFix b = cornerFixSpec b := by
  unfold cornerFix cornerFixSpec cornerScanOrder
  rw [foldl_bind_map]
  simp only [cornerStep_eq_spec]

/-- Whether the 2×2 neighborhood at column `x`, row `y` matches one of
the two diagonal trigger patterns of the corner corrector. -/
def triggerAt (b : Grid) (x y : ℕ) : Bool :=
  (decide (getPx b y x = 0) && decide (getPx b (y+1) x = 255) &&
   decide (getPx b y (x+1) = 255) && decide (getPx b (y+1) (x+1) = 0)) ||
  (decide (getPx b y x = 255) && decide (getPx b (y+1) x = 0) &&
   decide (getPx b y (x+1) = 0) && decide (getPx b (y+1) (x+1) = 255))

/-- Whether some 2×2 neighborhood of the bitmap still matches a
trigger pattern. -/
def hasTrigger (b : Grid) : Bool :=
  (List.range (gridW b - 1)).any (fun x =>
    (List.range (gridH b - 1)).any (fun y => triggerAt b x y))

/-- A 3×3 binary bitmap on which corner correction is not idempotent:
the first pass blackens the center cell (pattern 1 at `x=1, y=0`),
which creates a pattern-2 neighborhood at `x=0, y=1` that the pass has
already scanned past; the second pass then blackens cell `(1, 2)`. -/
def nonIdemBitmap : Grid := [[255, 0, 255], [255, 255, 0], [0, 255, 255]]

/-- Claim C7 counterexample: corner correction is not idempotent — on
`nonIdemBitmap` (an all-binary 3×3 bitmap) a second pass changes the
bitmap again, and indeed after one pass a 2×2 neighborhood still
matches a trigger pattern. -/
theorem cornerFix_not_idempotent :
    cornerFix (cornerFix nonIdemBitmap) ≠ cornerFix nonIdemBitmap ∧
    hasTrigger (cornerFix nonIdemBitmap) = true := by decide

/-- The 4×4 checkerboard bitmap from the specification's scenario. -/
def checkerboard4 : Grid :=
  [[0, 255, 0, 255], [255, 0, 255, 0], [0, 255, 0, 255], [255, 0, 255, 0]]

/-- Claim C7 amended: corner correction is not idempotent in general; on
the specification's own scenario, the 4×4 checkerboard, one pass does
eliminate every diagonal trigger pattern and a second pass changes
nothing. -/
theorem cornerFix_checkerboard_settles :
    cornerFix (cornerFix checkerboard4) = cornerFix checkerboard4 ∧
    hasTrigger (cornerFix checkerboard4) = false := by decide

/-! ### Thresholder (`picToGDS.py` lines 65–75)

    T_effective = T_otsu + threshold_offset
    T_effective = float(np.clip(T_effective, 0, 255))
    _, binaryImage = cv2.threshold(gray, T_effective, 255, cv2.THRESH_BINARY)
-/

/-- NumPy clip to an interval: values below `lo` become `lo`, values
above `hi` become `hi`. -/
def npClip (v lo hi : ℚ) : ℚ := min hi (max lo v)

/-- The effective threshold of the thresholder stage: the Otsu value
returned by `cv2.threshold(..., cv2.THRESH_OTSU)` plus the caller's
offset, clipped to `[0, 255]` (lines 69–71). -/
def effectiveThreshold (totsu offset : ℚ) : ℚ := npClip (totsu + offset) 0 255

/-- One pixel of `cv2.threshold(gray, T, 255, cv2.THRESH_BINARY)`:
255 when the source value exceeds the threshold, else 0. -/
def threshBinaryPx (t : ℚ) (v : ℕ) : ℕ := if (v : ℚ) > t then 255 else 0

/-- Binarization of the whole grayscale buffer (line 75). -/
def threshBinary (t : ℚ) (g : Grid) : Grid :=
  g.map (fun row => row.map (threshBinaryPx t))

/-- Claim C3: for every grayscale buffer and every real offset, the
effective threshold equals `clamp(otsu_threshold + offset, 0, 255)`,
so it always lies in `[0, 255]`; binarization maps every pixel with
intensity strictly greater than the effective threshold to white
(255) and every other pixel to black (0). -/
theorem thresholder_clamp_and_polarity (totsu offset : ℚ) (g : Grid) (y x : ℕ)
    (hy : y < g.length) (hx : x < (g.getD y []).length) :
    0 ≤ effectiveThreshold totsu offset ∧
    effectiveThreshold totsu offset ≤ 255 ∧
    effectiveThreshold totsu offset = max 0 (min 255 (totsu + offset)) ∧
    getPx (threshBinary (effectiveThreshold totsu offset) g) y x =
      (if effectiveThreshold totsu offset < (getPx g y x : ℚ) then 255 else 0) := by
  refine ⟨?_, ?_, ?_, ?_⟩
  · unfold effectiveThreshold npClip
    exact le_min (by norm_num) (le_max_left _ _)
  · unfold effectiveThreshold npClip
    exact min_le_left _ _
  · unfold effectiveThreshold npClip
    rw [max_min_distrib_left]
    norm_num [min_comm]
  · unfold threshBinary getPx
    have h1 : (g.map (fun row => row.map (threshBinaryPx (effectiveThreshold totsu offset)))).getD y []
        = (g.getD y []).map (threshBinaryPx (effectiveThreshold totsu offset)) := by
      rcases Nat.lt_or_ge y g.length with hy' | hy'
      · rw [List.getD_eq_getElem _ _ (by simpa using hy'), List.getD_eq_getElem _ _ hy',
          List.getElem_map]
      · rw [List.getD_eq_default _ _ (by simpa using hy'), List.getD_eq_default _ _ hy']
        rfl
    rw [h1, List.getD_eq_getElem _ _ (by simpa using hx), List.getD_eq_getElem _ _ hx,
      List.getElem_map]
    unfold threshBinaryPx
    rfl

/-- Witness for C3: the specification's own boundary scenario, `offset
= -300` on a uniform bright image, clamps the threshold to 0, and the
pixel at value 255 maps to white. -/
theorem thresholder_clamp_and_polarity_witness :
    effectiveThreshold 100 (-300) = 0 ∧
    getPx (threshBinary (effectiveThreshold 100 (-300)) [[255]]) 0 0 = 255 := by
  have h := thresholder_clamp_and_polarity 100 (-300) [[255]] 0 0 (by decide) (by decide)
  refine ⟨?_, ?_⟩
  · rw [h.2.2.1]; norm_num
  · rw [h.2.2.2]
    norm_num [getPx]
    rw [show effectiveThreshold 100 (-300) = 0 by rw [h.2.2.1]; norm_num]
    norm_num

/-! ### Layout emitter (`picToGDS.py` lines 102–133)

    ys = 0.0
    for y in range(height):
        xs = 0.0
        for x in range(width):
            b = binaryImage[y, x]
            if b == 0:
                grid.add(gdspy.CellReference(unitCell, (xs * sizeOfTheCell, ys * sizeOfTheCell)))
            xs += 1.0
        ys += 1.0
    ...
    scaleFactor = sizeOfTheCell
    scaledGrid = gdspy.CellReference(grid, (0.0, 0.0), magnification=scaleFactor)

The float counters `xs`, `ys` step by exactly 1.0, so they equal the
loop indices `x`, `y`. -/

/-- Origins of the references added to the GRID cell, in emission
order: one per black pixel, at `(x * sizeOfTheCell, y * sizeOfTheCell)`. -/
def gridRefs (b : Grid) (s : ℚ) : List (ℚ × ℚ) :=
  (List.range (gridH b)).foldl (fun acc y =>
    (List.range (gridW b)).foldl (fun acc2 x =>
      if getPx b y x = 0 then acc2 ++ [((x : ℚ) * s, (y : ℚ) * s)] else acc2) acc) []

/-- Declarative form of the emitted reference list: scanning rows then
columns, each black pixel contributes exactly one origin and each
white pixel contributes none. -/
def gridRefsSpec (b : Grid) (s : ℚ) : List (ℚ × ℚ) :=
  (List.range (gridH b)).flatMap (fun y =>
    (List.range (gridW b)).filterMap (fun x =>
      if getPx b y x = 0 then some ((x : ℚ) * s, (y : ℚ) * s) else none))

/-- Reference origins as claim C1 words them: one per black pixel, at
the vertically flipped coordinate `(x, height − y − 1)`. -/
def gridRefsClaimC1 (b : Grid) : List (ℚ × ℚ) :=
  (List.range (gridH b)).flatMap (fun y =>
    (List.range (gridW b)).filterMap (fun x =>
      if getPx b y x = 0 then some ((x : ℚ), (gridH b : ℚ) - y - 1) else none))

/-- Raw (unscaled) integer pixel coordinates of the black pixels, as
claim C2 says the grid references use. -/
def rawGridCoords (b : Grid) : List (ℚ × ℚ) :=
  (List.range (gridH b)).flatMap (fun y =>
    (List.range (gridW b)).filterMap (fun x =>
      if getPx b y x = 0 then some ((x : ℚ), (y : ℚ)) else none))

/-- The magnification the TOP cell applies to its single reference to
GRID: `scaleFactor = sizeOfTheCell` (lines 129–130). -/
def topMagnification (sizeOfTheCell : ℚ) : ℚ := sizeOfTheCell

theorem foldl_append_chunks {α β : Type} (xs : List α) (r : α → List β) (acc : List β) :
    xs.foldl (fun a x => a ++ r x) acc = acc ++ xs.flatMap r := by
  induction xs generalizing acc with
  | nil => simp
  | cons x xs ih => simp [List.flatMap_cons, ih, List.append_assoc]

theorem foldl_ite_append {α β : Type} (xs : List α) (c : α → Prop) [DecidablePred c]
    (v : α → β) (acc : List β) :
    xs.foldl (fun a x => if c x then a ++ [v x] else a) acc
      = acc ++ xs.filterMap (fun x => if c x then some (v x) else none) := by
  induction xs generalizing acc with
  | nil => simp
  | cons x xs ih =>
    by_cases h : c x <;>
      simp [List.filterMap_cons, h, ih, List.append_assoc]

/-- The source's accumulator loops compute the declarative reference
list. -/
theorem gridRefs_eq_spec (b : Grid) (s : ℚ) : gridRefs b s = gridRefsSpec b s := by
  unfold gridRefs gridRefsSpec
  have hstep :
      (fun (acc : List (ℚ × ℚ)) (y : ℕ) =>
        (List.range (gridW b)).foldl (fun acc2 x =>
          if getPx b y x = 0 then acc2 ++ [((x : ℚ) * s, (y : ℚ) * s)] else acc2) acc) =
      (fun acc y => acc ++ (List.range (gridW b)).filterMap (fun x =>
          if getPx b y x = 0 then some ((x : ℚ) * s, (y : ℚ) * s) else none)) := by
    funext acc y
    exact foldl_ite_append _ _ _ _
  rw [hstep, foldl_append_chunks]
  rfl

/-- Claim C1 counterexample: on the 1×2 bitmap whose single black
pixel sits at bitmap coordinate `(0, 0)` (with `height = 2` and
`sizeOfTheCell = 1`), the emitter places the reference at `(0, 0)`,
not at the vertically flipped `(0, height − 0 − 1) = (0, 1)` that the
claim requires. -/
theorem layout_no_vertical_flip :
    gridRefs [[0], [255]] 1 = [(0, 0)] ∧
    gridRefsClaimC1 [[0], [255]] = [(0, 1)] ∧
    gridRefs [[0], [255]] 1 ≠ gridRefsClaimC1 [[0], [255]] := by
  refine ⟨?_, ?_, ?_⟩ <;>
    norm_num [gridRefs, gridRefsClaimC1, gridH, gridW, getPx, List.range_succ,
      List.filterMap_cons, Prod.ext_iff]

/-- Claim C1 amended: the Layout Emitter produces exactly one cell
reference per black pixel and none for any white pixel, and a black
pixel at bitmap coordinate `(x, y)` is placed at layout coordinate
`(x * sizeOfTheCell, y * sizeOfTheCell)` — raster row order, with no
vertical flip. -/
theorem layout_one_ref_per_black_pixel (b : Grid) (s : ℚ) :
    gridRefs b s = gridRefsSpec b s :=
  gridRefs_eq_spec b s

/-- Claim C2 counterexample: with `sizeOfTheCell = 2` and a black
pixel at `(x, y) = (1, 0)`, the reference origin inside the GRID cell
is `(2, 0)` — the pixel coordinate multiplied by the physical cell
size — not the raw integer coordinate `(1, 0)` the claim requires,
while the TOP cell also applies magnification 2. -/
theorem grid_coords_not_raw :
    gridRefs [[255, 0]] 2 = [(2, 0)] ∧
    rawGridCoords [[255, 0]] = [(1, 0)] ∧
    gridRefs [[255, 0]] 2 ≠ rawGridCoords [[255, 0]] ∧
    topMagnification 2 = 2 := by
  refine ⟨?_, ?_, ?_, rfl⟩ <;>
    norm_num [gridRefs, rawGridCoords, gridH, gridW, getPx, List.range_succ,
      List.filterMap_cons, Prod.ext_iff]

/-- Claim C2 amended: the reference origins inside the GRID cell are
the pixel coordinates multiplied by `sizeOfTheCell`, and the TOP
cell's single reference to GRID additionally applies a magnification
equal to `sizeOfTheCell` — so the physical feature size is not
obtained solely through the top-level magnification; positions get
scaled by `sizeOfTheCell` twice (once in the coordinates, once by the
magnification), while the unit square itself is scaled only once. -/
theorem grid_coords_scaled_twice (b : Grid) (s : ℚ) :
    gridRefs b s = (rawGridCoords b).map (fun p => (p.1 * s, p.2 * s)) ∧
    topMagnification s = s := by
  constructor
  · rw [gridRefs_eq_spec]
    unfold gridRefsSpec rawGridCoords
    rw [List.map_flatMap]
    congr 1
    funext y
    rw [List.map_filterMap]
    congr 1
    funext x
    by_cases h : getPx b y x = 0 <;> simp [h]
  · rfl

/-! ### Loader/Scaler (`picToGDS.py` lines 30–36)

    if scale is None or scale <= 0:
        print(f"Warning: invalid scale={scale}, using 1.0 instead.")
        scale = 1.0
    img = cv2.resize(img_raw, dsize=None, fx=scale, fy=scale)
-/

/-- Scale normalization (lines 31–33): `None` or non-positive scales
are replaced by 1.0 after printing a warning.  Returns the scale that
is used and whether the warning was printed. -/
def fixScale (scale : Option ℚ) : ℚ × Bool :=
  match scale with
  | none => (1, true)
  | some s => if s ≤ 0 then (1, true) else (s, false)

/-- Output dimension of `cv2.resize` with `dsize=None` and a uniform
factor: the library computes `round(dim * factor)` (rounding to the
nearest integer; the source dimensions and factors the program feeds
it never produce ties). -/
def resizedDim (dim : ℕ) (s : ℚ) : ℤ := round ((dim : ℚ) * s)

/-- Claim C9: an absent or non-positive scale is substituted by 1.0,
with the substitution reported, and a positive scale is used
unchanged; the scale actually used is always positive (so resampling
proceeds and the conversion continues), and the scaled output
dimension is `round(original_dim * scale_used)`. -/
theorem scale_normalization (s : Option ℚ) (dim : ℕ) :
    (s = none → fixScale s = (1, true)) ∧
    (∀ v : ℚ, s = some v → v ≤ 0 → fixScale s = (1, true)) ∧
    (∀ v : ℚ, s = some v → 0 < v → fixScale s = (v, false)) ∧
    0 < (fixScale s).1 ∧
    resizedDim dim (fixScale s).1 = round ((dim : ℚ) * (fixScale s).1) := by
  refine ⟨?_, ?_, ?_, ?_, rfl⟩
  · rintro rfl; rfl
  · rintro v rfl hv
    simp [fixScale, hv]
  · rintro v rfl hv
    simp [fixScale, not_le.mpr hv]
  · cases s with
    | none => norm_num [fixScale]
    | some v =>
      by_cases hv : v ≤ 0
      · simp [fixScale, hv]
      · simp only [fixScale, if_neg hv]
        exact not_le.mp hv

/-- Witness for C9: the specification's scenario `scale = -5` is
normalized to 1.0 with the warning flag set, the normalized scale is
positive, and a 7-pixel dimension stays 7 pixels. -/
theorem scale_normalization_witness :
    fixScale (some (-5)) = (1, true) ∧ 0 < (fixScale (some (-5))).1 ∧
    resizedDim 7 (fixScale (some (-5))).1 = 7 := by
  have h := scale_normalization (some (-5)) 7
  have h1 : fixScale (some (-5)) = (1, true) := h.2.1 (-5) rfl (by norm_num)
  refine ⟨h1, h.2.2.2.1, ?_⟩
  rw [h.2.2.2.2, h1]
  norm_num [round_eq]

/-! ### Grayscale converter (`picToGDS.py` lines 26 and 44)

    img_raw = cv2.imread(fileName)            -- yields channels in B, G, R order
    gray = cv2.cvtColor(img, cv2.COLOR_RGB2GRAY)

OpenCV's 8-bit RGB→gray conversion uses the fixed-point luma weights
R2Y = 4899, G2Y = 9617, B2Y = 1868 at shift 14, descaled with
round-half-up: `gray = (c0*4899 + c1*9617 + c2*1868 + 8192) >> 14`,
applied positionally to the first, second and third channel. -/

/-- A three-channel pixel in the channel order `cv2.imread` stores:
`(blue, green, red)`. -/
abbrev BGRPixel := ℕ × ℕ × ℕ

/-- An image buffer as loaded: rows of BGR pixels. -/
abbrev BGRImage := List (List BGRPixel)

/-- One pixel of `cv2.cvtColor(img, cv2.COLOR_RGB2GRAY)`: the RGB luma
weights applied positionally to channels `(c0, c1, c2)`. -/
def cvtRGB2GRAYpx (c0 c1 c2 : ℕ) : ℕ := (4899 * c0 + 9617 * c1 + 1868 * c2 + 8192) / 2 ^ 14

/-- One pixel of the conversion that BGR-ordered data needs
(`cv2.COLOR_BGR2GRAY`): the same weights with the red weight on the
last channel reversed onto the first. -/
def cvtBGR2GRAYpx (c0 c1 c2 : ℕ) : ℕ := (1868 * c0 + 9617 * c1 + 4899 * c2 + 8192) / 2 ^ 14

/-- The grayscale buffer the program computes (line 44): `RGB2GRAY`
weights applied to the BGR-ordered buffer. -/
def grayConvert (img : BGRImage) : Grid :=
  img.map (List.map (fun p => cvtRGB2GRAYpx p.1 p.2.1 p.2.2))

/-- The grayscale buffer a correct conversion of the BGR-ordered
buffer would compute. -/
def trueGrayConvert (img : BGRImage) : Grid :=
  img.map (List.map (fun p => cvtBGR2GRAYpx p.1 p.2.1 p.2.2))

/-- The red plane of a loaded BGR image (third channel). -/
def redPlane (img : BGRImage) : Grid := img.map (List.map (fun p => p.2.2))

/-- The blue plane of a loaded BGR image (first channel). -/
def bluePlane (img : BGRImage) : Grid := img.map (List.map (fun p => p.1))

/-- Claim C10 counterexample: the tail of the claim — that the swap
"shifts the grayscale values and hence the Otsu threshold for any
image whose red and blue channels differ" — fails: on the 1×1 image
with `(B, G, R) = (0, 0, 1)` the red and blue planes differ, yet the
program's grayscale buffer equals the correct conversion's buffer
pixel for pixel (both quantize to 0), so the histogram and the Otsu
threshold computed from it are unchanged. -/
theorem gray_swap_not_always_shifting :
    redPlane [[(0, 0, 1)]] ≠ bluePlane [[(0, 0, 1)]] ∧
    grayConvert [[(0, 0, 1)]] = trueGrayConvert [[(0, 0, 1)]] := by decide

/-- Claim C10 amended: the loader yields channels in BGR order while
the converter applies the RGB luma weights positionally, so the
effective formula weights the source's blue channel by 0.299
(fixed-point 4899/16384) and its red channel by 0.114 (1868/16384) —
channel-swapped relative to the true colors; this changes the
grayscale value (and hence can move the Otsu threshold) at pixels
where the red/blue difference survives the 8-bit quantization, e.g. a
pure red pixel grays to 29 instead of 76. -/
theorem gray_channels_swapped (img : BGRImage) (r g b : ℕ) :
    grayConvert img = trueGrayConvert (img.map (List.map (fun p => (p.2.2, p.2.1, p.1)))) ∧
    cvtRGB2GRAYpx b g r = cvtBGR2GRAYpx r g b ∧
    grayConvert [[(0, 0, 255)]] = [[29]] ∧
    trueGrayConvert [[(0, 0, 255)]] = [[76]] := by
  have hpx : ∀ c0 c1 c2 : ℕ, cvtRGB2GRAYpx c0 c1 c2 = cvtBGR2GRAYpx c2 c1 c0 := by
    intro c0 c1 c2
    unfold cvtRGB2GRAYpx cvtBGR2GRAYpx
    ring_nf
  refine ⟨?_, hpx b g r, by decide, by decide⟩
  unfold grayConvert trueGrayConvert
  rw [List.map_map]
  congr 1
  funext row
  simp only [Function.comp_apply]
  rw [List.map_map]
  congr 1
  funext p
  simp only [Function.comp_apply]
  exact hpx p.1 p.2.1 p.2.2

/-! ### Output artifacts and failure paths (`picToGDS.py` lines 26–28,
99–133 and `app.py` lines 39–102)

In `main`, the preview `cv2.imwrite("image.bmp", ...)` at line 100
runs before the layout `lib.write_gds("image.gds")` at line 133; a
decode failure at line 27 raises before either write.  The wrapper
`convert_to_gds` runs `main` in a temporary directory, raises
(returning nothing, the directory discarded) when the subprocess
fails, and otherwise copies out the GDS file — raising if it is
missing — and the preview if present. -/

/-- The two output artifacts of a conversion. -/
inductive Artifact
  | preview
  | layout
  deriving DecidableEq

/-- Effect trace of `main`: the files written to the working
directory, in order, and whether `main` completed without raising.
`imreadOk` is whether `cv2.imread` decoded the input (line 27 raises
otherwise, before any write); `gdsWriteOk` is whether the final
`write_gds` I/O succeeds (line 133, the last effect). -/
def mainArtifacts (imreadOk gdsWriteOk : Bool) : List Artifact × Bool :=
  if imreadOk then
    (Artifact.preview :: (if gdsWriteOk then [Artifact.layout] else []), gdsWriteOk)
  else
    ([], false)

/-- The wrapper `convert_to_gds` of `app.py`: `none` models raising
`gr.Error` (no artifacts returned); on success it returns the GDS
artifact and the preview artifact if one exists. -/
def convertToGds (imreadOk gdsWriteOk : Bool) : Option (Artifact × Option Artifact) :=
  let r := mainArtifacts imreadOk gdsWriteOk
  if r.2 = false then none
  else if Artifact.layout ∈ r.1 then
    some (Artifact.layout,
      if Artifact.preview ∈ r.1 then some Artifact.preview else none)
  else none

/-- Claim C8 counterexample: when the layout write fails after
binarization (decode succeeded, `write_gds` raised), `main` has
already written the preview file — a partial artifact is left in the
working directory on a failure path. -/
theorem preview_written_before_failure :
    (mainArtifacts true false).2 = false ∧
    Artifact.preview ∈ (mainArtifacts true false).1 ∧
    Artifact.layout ∉ (mainArtifacts true false).1 := by decide

/-- Claim C8 amended: `main` writes the preview before attempting the
layout file, so an error raised between the two leaves the preview
file behind in the working directory; the web wrapper, however,
returns no artifact at all on any failure path (it raises, and its
temporary directory is discarded), and returns both artifacts on
success. -/
theorem no_partial_artifacts_returned (imreadOk gdsWriteOk : Bool) :
    ((mainArtifacts imreadOk gdsWriteOk).2 = false →
      convertToGds imreadOk gdsWriteOk = none) ∧
    ((mainArtifacts imreadOk gdsWriteOk).2 = true →
      convertToGds imreadOk gdsWriteOk =
        some (Artifact.layout, some Artifact.preview)) := by
  cases imreadOk <;> cases gdsWriteOk <;> exact ⟨fun h => by simp_all [convertToGds], fun h => by simp_all [convertToGds, mainArtifacts]⟩

/-- Witness for C8 (amended): at the concrete failure point of the
counterexample — decode succeeded, layout write failed — the wrapper
returns nothing. -/
theorem no_partial_artifacts_returned_witness :
    convertToGds true false = none :=
  (no_partial_artifacts_returned true false).1 (by decide)

/-! ### Ditherer (`picToGDS.py` lines 12–17 and 47–63)

    def minmax(v):
        if v > 255: v = 255
        if v < 0: v = 0
        return v

    if isDither:
        for y in range(0, height - 1):
            for x in range(1, width - 1):
                old_p = gray[y, x]
                new_p = np.round(old_p / 255.0) * 255
                gray[y, x] = new_p
                error_p = old_p - new_p
                gray[y, x + 1] = minmax(gray[y, x + 1] + error_p * 7 / 16.0)
                gray[y + 1, x - 1] = minmax(gray[y + 1, x - 1] + error_p * 3 / 16.0)
                gray[y + 1, x] = minmax(gray[y + 1, x] + error_p * 5 / 16.0)
                gray[y + 1, x + 1] = minmax(gray[y + 1, x + 1] + error_p * 1 / 16.0)

`gray` is a `uint8` buffer; the float arithmetic (error terms are
integer multiples of 1/16, magnitudes below 2^10) is exact in
`float64` and hence represented exactly in `ℚ`; assigning a float into
the buffer truncates toward zero, which on the `minmax`-clamped
nonnegative values is the floor. -/

/-- Saturation helper of the source (lines 12–17): clamp above 255,
then clamp below 0, as two sequential conditionals. -/
def minmax (v : ℚ) : ℚ :=
  let v1 := if v > 255 then 255 else v
  if v1 < 0 then 0 else v1

/-- Store a float value into a `uint8` buffer cell: NumPy casts by
truncation toward zero, the floor on these clamped values. -/
def toU8 (v : ℚ) : ℕ := (⌊v⌋).toNat

/-- The quantization `np.round(old_p / 255.0) * 255` of line 53.
`np.round` rounds half to even, but `old_p / 255.0` is never an exact
half (255 is odd), so rounding to the nearest integer is exact. -/
def fsQuantize (oldp : ℕ) : ℤ := 255 * round ((oldp : ℚ) / 255)

/-- The dither loop body at row `y`, column `x` (lines 52–63):
quantize the pixel and write it back, then diffuse the quantization
error into the four neighbors, each update clamped by `minmax`,
stored into the byte buffer, and visible to the following reads. -/
def ditherAt (g : Grid) (y x : ℕ) : Grid :=
  let oldp := getPx g y x
  let newp := fsQuantize oldp
  let g1 := setPx g y x newp.toNat
  let errp : ℚ := (oldp : ℚ) - (newp : ℚ)
  let g2 := setPx g1 y (x+1) (toU8 (minmax ((getPx g1 y (x+1) : ℚ) + errp * 7 / 16)))
  let g3 := setPx g2 (y+1) (x-1) (toU8 (minmax ((getPx g2 (y+1) (x-1) : ℚ) + errp * 3 / 16)))
  let g4 := setPx g3 (y+1) x (toU8 (minmax ((getPx g3 (y+1) x : ℚ) + errp * 5 / 16)))
  setPx g4 (y+1) (x+1) (toU8 (minmax ((getPx g4 (y+1) (x+1) : ℚ) + errp * 1 / 16)))

/-- The dithering double loop (lines 50–51): `y` over
`range(0, height - 1)`, `x` over `range(1, width - 1)`. -/
def ditherPass (g : Grid) : Grid :=
  (List.range (gridH g - 1)).foldl
    (fun g1 y => (List.range' 1 (gridW g - 2)).foldl (fun g2 x => ditherAt g2 y x) g1) g

/-- The dithering stage (line 47): runs only when the `-d` flag is
set; otherwise the grayscale buffer passes through unchanged. -/
def ditherImage (isDither : Bool) (g : Grid) : Grid :=
  if isDither then ditherPass g else g

/-- Clamping a value into the interval [0, 255], as claim C5 words
the neighbor saturation. -/
def clampByte (v : ℚ) : ℚ := max 0 (min 255 v)

/-- Rounding an intensity to the nearer of {0, 255}, as claim C5
words the quantization (ties are impossible on integer inputs). -/
def nearerOf (v : ℕ) : ℕ := if 255 < 2 * v then 255 else 0

/-- Error diffusion into one neighbor as claim C5 words it: add
`err * w / 16` to the neighbor at row `y`, column `x`, clamp into
[0, 255], and store into the byte buffer. -/
def diffuseInto (g : Grid) (y x : ℕ) (err w : ℚ) : Grid :=
  setPx g y x (toU8 (clampByte ((getPx g y x : ℚ) + err * w / 16)))

/-- One visited pixel as claim C5 describes it: round to the nearer
of {0, 255}, write back, take the error `old − new`, and add
`error*7/16` to the right, `error*3/16` to the below-left,
`error*5/16` to the below, and `error*1/16` to the below-right
neighbor, clamping after each addition, every update visible to
subsequent visits. -/
def fsStepSpec (g : Grid) (p : ℕ × ℕ) : Grid :=
  let oldp := getPx g p.1 p.2
  let newp := nearerOf oldp
  let err : ℚ := (oldp : ℚ) - (newp : ℚ)
  let g1 := setPx g p.1 p.2 newp
  let g2 := diffuseInto g1 p.1 (p.2 + 1) err 7
  let g3 := diffuseInto g2 (p.1 + 1) (p.2 - 1) err 3
  let g4 := diffuseInto g3 (p.1 + 1) p.2 err 5
  diffuseInto g4 (p.1 + 1) (p.2 + 1) err 1

/-- The raster-scan visit order claim C5 describes: rows 0..height-2
in the outer loop, columns 1..width-2 in the inner loop. -/
def fsVisitOrder (w h : ℕ) : List (ℕ × ℕ) :=
  (List.range (h - 1)).flatMap (fun y => (List.range' 1 (w - 2)).map (fun x => (y, x)))

/-- The dithering pass as claim C5 words it: one stateful fold over
the visit order. -/
def ditherSpec (g : Grid) : Grid :=
  (fsVisitOrder (gridW g) (gridH g)).foldl fsStepSpec g

/-- Every intensity stored in the buffer fits in a byte — the
invariant the `uint8` arrays maintain by construction. -/
def bytesBounded (g : Grid) : Prop := ∀ row ∈ g, ∀ v ∈ row, v ≤ 255

theorem minmax_eq_clampByte (v : ℚ) : minmax v = clampByte v := by
  unfold minmax clampByte
  dsimp only
  simp only [max_def, min_def]
  split_ifs <;> linarith

theorem nearerOf_le (v : ℕ) : nearerOf v ≤ 255 := by
  unfold nearerOf
  split_ifs <;> omega

theorem toU8_clampByte_le (v : ℚ) : toU8 (clampByte v) ≤ 255 := by
  unfold toU8 clampByte
  have h1 : max 0 (min 255 v) ≤ 255 := max_le (by norm_num) (min_le_left _ _)
  have h2 : ⌊max 0 (min 255 v)⌋ ≤ 255 := by
    calc ⌊max 0 (min 255 v)⌋ ≤ ⌊(255 : ℚ)⌋ := Int.floor_le_floor h1
    _ = 255 := by norm_num
  exact Int.toNat_le.mpr h2

theorem toU8_minmax_le (v : ℚ) : toU8 (minmax v) ≤ 255 := by
  rw [minmax_eq_clampByte]
  exact toU8_clampByte_le v

theorem fsQuantize_eq_nearerOf (v : ℕ) (hv : v ≤ 255) :
    fsQuantize v = (nearerOf v : ℤ) := by
  unfold fsQuantize nearerOf
  have h255 : ((v : ℚ)) ≤ 255 := by exact_mod_cast hv
  by_cases h : 255 < 2 * v
  · have h128 : (128 : ℚ) ≤ (v : ℚ) := by exact_mod_cast (by omega : 128 ≤ v)
    have hd : (128 : ℚ) / 255 ≤ (v : ℚ) / 255 :=
      (div_le_div_right (by norm_num)).mpr h128
    have hd1 : (v : ℚ) / 255 ≤ 1 := (div_le_one (by norm_num)).mpr h255
    have hr : round ((v : ℚ) / 255) = 1 := by
      rw [round_eq, Int.floor_eq_iff]
      constructor
      · push_cast
        linarith
      · push_cast
        linarith
    rw [hr, if_pos h]
    norm_num
  · have h127 : (v : ℚ) ≤ 127 := by exact_mod_cast (by omega : v ≤ 127)
    have hd : (v : ℚ) / 255 ≤ (127 : ℚ) / 255 :=
      (div_le_div_right (by norm_num)).mpr h127
    have hd0 : (0 : ℚ) ≤ (v : ℚ) / 255 := by positivity
    have hr : round ((v : ℚ) / 255) = 0 := by
      rw [round_eq, Int.floor_eq_iff]
      constructor
      · push_cast
        linarith
      · push_cast
        linarith
    rw [hr, if_neg h]
    norm_num

theorem fsQuantize_toNat_le {v : ℕ} (hv : v ≤ 255) : (fsQuantize v).toNat ≤ 255 := by
  rw [fsQuantize_eq_nearerOf v hv, Int.toNat_natCast]
  exact nearerOf_le v

theorem getPx_le_of_bytesBounded {g : Grid} (h : bytesBounded g) (y x : ℕ) :
    getPx g y x ≤ 255 := by
  unfold getPx
  rcases Nat.lt_or_ge y g.length with hy | hy
  · rw [List.getD_eq_getElem _ _ hy]
    rcases Nat.lt_or_ge x g[y].length with hx | hx
    · rw [List.getD_eq_getElem _ _ hx]
      exact h _ (List.getElem_mem _) _ (List.getElem_mem _)
    · rw [List.getD_eq_default _ _ hx]
      omega
  · rw [List.getD_eq_default _ _ hy]
    simp

theorem bytesBounded_setPx {g : Grid} (h : bytesBounded g) {v : ℕ} (hv : v ≤ 255)
    (y x : ℕ) : bytesBounded (setPx g y x v) := by
  intro row hrow w hw
  unfold setPx at hrow
  rcases List.mem_or_eq_of_mem_set hrow with hrow' | rfl
  · exact h row hrow' w hw
  · rcases List.mem_or_eq_of_mem_set hw with hw' | rfl
    · rcases Nat.lt_or_ge y g.length with hy | hy
      · rw [List.getD_eq_getElem _ _ hy] at hw'
        exact h _ (List.getElem_mem _) w hw'
      · rw [List.getD_eq_default _ _ hy] at hw'
        cases hw'
    · exact hv

theorem bytesBounded_ditherAt {g : Grid} (h : bytesBounded g) (y x : ℕ) :
    bytesBounded (ditherAt g y x) := by
  have hb := getPx_le_of_bytesBounded h y x
  unfold ditherAt
  exact bytesBounded_setPx
    (bytesBounded_setPx
      (bytesBounded_setPx
        (bytesBounded_setPx
          (bytesBounded_setPx h (fsQuantize_toNat_le hb) y x)
          (toU8_minmax_le _) y (x+1))
        (toU8_minmax_le _) (y+1) (x-1))
      (toU8_minmax_le _) (y+1) x)
    (toU8_minmax_le _) (y+1) (x+1)

theorem ditherAt_eq_fsStepSpec {g : Grid} (h : bytesBounded g) (y x : ℕ) :
    ditherAt g y x = fsStepSpec g (y, x) := by
  have hb := getPx_le_of_bytesBounded h y x
  unfold ditherAt fsStepSpec diffuseInto
  dsimp only
  rw [fsQuantize_eq_nearerOf _ hb]
  simp only [Int.toNat_natCast, Int.cast_natCast, minmax_eq_clampByte]

theorem foldl_congr_of_invariant {α β : Type} (P : α → Prop) (f g : α → β → α)
    (l : List β) (a : α) (hP : P a)
    (hpres : ∀ a b, P a → P (f a b))
    (hcong : ∀ a b, P a → f a b = g a b) :
    l.foldl f a = l.foldl g a := by
  induction l generalizing a with
  | nil => rfl
  | cons b l ih =>
    simp only [List.foldl_cons]
    rw [← hcong a b hP]
    exact ih (f a b) (hpres a b hP)

theorem ditherPass_eq_flat (g : Grid) :
    ditherPass g = (fsVisitOrder (gridW g) (gridH g)).foldl
      (fun a p => ditherAt a p.1 p.2) g := by
  unfold ditherPass fsVisitOrder
  rw [foldl_bind_map]

/-- Claim C5: when dithering is enabled, the Ditherer visits exactly
rows 0..height-2 and columns 1..width-2 in raster-scan order; each
visited pixel is rounded to the nearer of {0, 255} and written back,
the quantization error `old − new` is distributed 7/16 right, 3/16
below-left, 5/16 below, 1/16 below-right, each updated neighbor
clamped into [0, 255] immediately and visible to subsequent visits;
when dithering is disabled the buffer is unchanged. -/
theorem ditherer_matches_spec (g : Grid) (h : bytesBounded g) :
    ditherImage true g = ditherSpec g ∧ ditherImage false g = g := by
  refine ⟨?_, rfl⟩
  show ditherPass g = ditherSpec g
  rw [ditherPass_eq_flat]
  unfold ditherSpec
  exact foldl_congr_of_invariant bytesBounded _ _ _ g h
    (fun a p hp => bytesBounded_ditherAt hp p.1 p.2)
    (fun a p hp => by
      obtain ⟨py, px⟩ := p
      exact ditherAt_eq_fsStepSpec hp py px)

/-- A uniform 3×3 grayscale buffer of intensity 128. -/
def gray128 : Grid := [[128, 128, 128], [128, 128, 128], [128, 128, 128]]

/-- Witness for C5: the equivalence applied to the concrete byte
buffer `gray128`. -/
theorem ditherer_matches_spec_witness :
    bytesBounded gray128 ∧ ditherImage true gray128 = ditherSpec gray128 := by
  have hb : bytesBounded gray128 := by
    unfold bytesBounded
    decide
  exact ⟨hb, (ditherer_matches_spec gray128 hb).1⟩

theorem getPx_setPx_ne_origin (g : Grid) (y x v : ℕ) (hne : ¬(y = 0 ∧ x = 0)) :
    getPx (setPx g y x v) 0 0 = getPx g 0 0 := by
  unfold getPx setPx
  cases g with
  | nil => rfl
  | cons r rs =>
    cases y with
    | zero =>
      have hx : x ≠ 0 := fun hx0 => hne ⟨rfl, hx0⟩
      cases r with
      | nil => rfl
      | cons a as =>
        cases x with
        | zero => exact absurd rfl hx
        | succ n => rfl
    | succ n => rfl

theorem ditherAt_preserves_origin (g : Grid) (y x : ℕ) (hx : 1 ≤ x) :
    getPx (ditherAt g y x) 0 0 = getPx g 0 0 := by
  unfold ditherAt
  dsimp only
  rw [getPx_setPx_ne_origin _ _ _ _ (by omega),
    getPx_setPx_ne_origin _ _ _ _ (by omega),
    getPx_setPx_ne_origin _ _ _ _ (by omega),
    getPx_setPx_ne_origin _ _ _ _ (by omega),
    getPx_setPx_ne_origin _ _ _ _ (by omega)]

theorem fsVisitOrder_col_pos {w h : ℕ} {p : ℕ × ℕ} (hp : p ∈ fsVisitOrder w h) :
    1 ≤ p.2 := by
  unfold fsVisitOrder at hp
  simp only [List.mem_flatMap, List.mem_map, List.mem_range] at hp
  obtain ⟨y, _, x, hx, rfl⟩ := hp
  exact (List.mem_range'_1.mp hx).1

theorem getPx_origin_foldl (l : List (ℕ × ℕ)) (g : Grid)
    (hl : ∀ p ∈ l, 1 ≤ p.2) :
    getPx (l.foldl (fun a p => ditherAt a p.1 p.2) g) 0 0 = getPx g 0 0 := by
  induction l generalizing g with
  | nil => rfl
  | cons p l ih =>
    simp only [List.foldl_cons]
    rw [ih _ (fun q hq => hl q (List.mem_cons_of_mem _ hq))]
    exact ditherAt_preserves_origin g p.1 p.2 (hl p (List.mem_cons_self _ _))

/-- Claim C4 amended: a dithering pass can modify border pixels — it
quantizes the interior of the first row and diffuses error into the
first column, the last column and the last row; the only pixel it
can never modify is the top-left corner `(0, 0)`, so the claim's
consequence about the total intensity sum over untouched borders does
not apply. -/
theorem dither_preserves_topleft (g : Grid) :
    getPx (ditherPass g) 0 0 = getPx g 0 0 := by
  rw [ditherPass_eq_flat]
  exact getPx_origin_foldl _ g (fun p hp => fsVisitOrder_col_pos hp)

/-- Claim C4 counterexample: on the uniform 3×3 buffer `gray128` the
dithering pass modifies border pixels in the first row and last
column (pixel `(0, 2)` becomes 72), the first column (pixel `(1, 0)`
becomes 104), and the last row (pixel `(2, 1)` becomes 155). -/
theorem dither_modifies_border :
    ditherPass gray128 = [[128, 255, 72], [104, 0, 158], [144, 155, 133]] ∧
    getPx (ditherPass gray128) 0 2 ≠ getPx gray128 0 2 ∧
    getPx (ditherPass gray128) 1 0 ≠ getPx gray128 1 0 ∧
    getPx (ditherPass gray128) 2 1 ≠ getPx gray128 2 1 := by
  have h1 : ditherAt gray128 0 1 = [[128, 255, 72], [104, 88, 120], [128, 128, 128]] := by
    norm_num [ditherAt, gray128, getPx, setPx, minmax, toU8, fsQuantize, round_eq]
    decide
  have h2 : ditherAt [[128, 255, 72], [104, 88, 120], [128, 128, 128]] 1 1 =
      [[128, 255, 72], [104, 0, 158], [144, 155, 133]] := by
    norm_num [ditherAt, getPx, setPx, minmax, toU8, fsQuantize, round_eq]
    decide
  have h3 : ditherPass gray128 = [[128, 255, 72], [104, 0, 158], [144, 155, 133]] := by
    rw [show ditherPass gray128 = ditherAt (ditherAt gray128 0 1) 1 1 from rfl, h1, h2]
  refine ⟨h3, ?_, ?_, ?_⟩ <;> rw [h3] <;> decide

end PicToGDS
